import Mathlib

/-!
Verification of the content-classification and crawl-scoping logic of the
Korak513 crawler (`src/main.js`).

The crawler's `requestHandler` is shallowly embedded here as pure Lean
functions.  Strings are modelled at the level of their character lists
(`String.data`); JavaScript string operations (`slice`, `trim`, `split`,
`toLowerCase`, regexp substring tests) are reimplemented as structural,
kernel-reducible functions faithful to their behaviour on the ASCII texts
the heuristics operate on.  The WHATWG `URL` constructor is an external
collaborator and is abstracted as a parameter: `host : String → Option
String` models `u => new URL(u).host` (`none` = the constructor throws),
and `resolve : String → String → Option String` models
`(href, base) => new URL(href, base).toString()`.
-/

namespace Korak

/-! ## JavaScript string primitives, modelled on `List Char` -/

/-- ASCII lower-casing of one character, as done by a case-insensitive
JavaScript regexp or `String.prototype.toLowerCase` on ASCII input. -/
def lowerChar (c : Char) : Char :=
  if 'A' ≤ c ∧ c ≤ 'Z' then Char.ofNat (c.toNat + 32) else c

/-- Model of `s.toLowerCase()` on ASCII input. -/
def strToLower (s : String) : String := ⟨s.data.map lowerChar⟩

/-- Does the character list begin with the pattern `pat`? -/
def startsWithL : List Char → List Char → Bool
  | [], _ => true
  | _ :: _, [] => false
  | p :: ps, c :: cs => p = c && startsWithL ps cs

/-- Does the character list contain `pat` as a contiguous run? -/
def containsL (pat : List Char) : List Char → Bool
  | [] => startsWithL pat []
  | c :: rest => startsWithL pat (c :: rest) || containsL pat rest

/-- Substring test, as a JavaScript literal-regexp `test` performs it. -/
def strContains (s pat : String) : Bool := containsL pat.data s.data

/-- A case-insensitive regexp substring test `/pat/i.test(s)` for an
already-lowercase literal pattern `pat`. -/
def containsCI (s pat : String) : Bool := strContains (strToLower s) pat

/-- Model of `s.endsWith(pat)`. -/
def strEndsWith (s pat : String) : Bool :=
  startsWithL pat.data.reverse s.data.reverse

/-- The ASCII whitespace characters removed by `String.prototype.trim`. -/
def isWs (c : Char) : Bool :=
  c = ' ' || c = '\t' || c = '\n' || c = '\r' || c = '\x0b' || c = '\x0c'

/-- Model of `s.trim()` on ASCII whitespace. -/
def jsTrim (s : String) : String :=
  ⟨((s.data.dropWhile isWs).reverse.dropWhile isWs).reverse⟩

/-- Model of `s.slice(0, n)`: the first `n` characters of `s`. -/
def jsSlice (s : String) (n : Nat) : String := ⟨s.data.take n⟩

/-- JavaScript `a || b` on strings: the empty string is falsy. -/
def jsOr (a b : String) : String := if a = "" then b else a

/-- Model of `attr(...) || b`: an absent attribute (`undefined`) and the empty
string are both falsy. -/
def jsOrOpt (a : Option String) (b : String) : String := jsOr (a.getD "") b

/-- Model of `parts.join(sep)`. -/
def joinSep (sep : String) : List String → String
  | [] => ""
  | [s] => s
  | s :: t :: rest => s ++ sep ++ joinSep sep (t :: rest)

/-- Helper for comma splitting, accumulating the current segment in
reverse. -/
def splitCommaAux : List Char → List Char → List String
  | [], cur => [⟨cur.reverse⟩]
  | c :: rest, cur =>
    if c = ',' then ⟨cur.reverse⟩ :: splitCommaAux rest []
    else splitCommaAux rest (c :: cur)

/-- Model of JavaScript comma splitting `s.split(/,/)` semantics. -/
def jsSplitComma (s : String) : List String := splitCommaAux s.data []

/-- Helper for set deduplication: keep the first occurrence of each
element, in insertion order; `seen` holds elements already kept. -/
def dedupAux (seen : List String) : List String → List String
  | [] => []
  | x :: xs =>
    if x ∈ seen then dedupAux seen xs
    else x :: dedupAux (x :: seen) xs

/-- Model of `Array.from(new Set(l))`: first-occurrence-order
deduplication. -/
def jsSetDedup (l : List String) : List String := dedupAux [] l

/-! ## Crawl requests and the link-admission filter (`main.js` lines 28-43) -/

/-- A crawl request: its URL and the optional `userData.startHost` tag. -/
structure Req where
  url : String
  startHost : Option String
deriving DecidableEq

/-- Model of `request.userData.startHost || request.url`: the string whose `URL`
host is compared against the candidate's host (`main.js` line 34).  An
absent tag and an empty-string tag are both falsy in JavaScript. -/
def effectiveStartUrl (origin : Req) : String :=
  match origin.startHost with
  | some s => if s = "" then origin.url else s
  | none => origin.url

/-- Model of `transformRequestFunction` (`main.js` lines 30-42).  `host u` models
`new URL(u).host`, with `none` meaning the constructor throws.  Returns
`some r` when the candidate is admitted (the function returns `r`) and
`none` when it is refused (the function returns `null`).  A parse failure
of either URL lands in the empty catch block, after which `r` is
returned. -/
def transformRequest (host : String → Option String) (followInternalOnly : Bool)
    (origin : Req) (r : Req) : Option Req :=
  if followInternalOnly then
    match host (effectiveStartUrl origin), host r.url with
    | some startHost, some candidateHost =>
      if candidateHost ≠ startHost then none else some r
    | some _, none => some r
    | none, _ => some r
  else some r

/-! ## Page model

A fetched, parsed page is abstracted by the texts the `requestHandler`'s
selectors read from it: each selector hit is recorded as the string (or
list of strings) `cheerio` would return for it, in document order. -/

/-- One element of the document, as the executive-summary heuristic sees
it: its own text (`$(el).text()`) and the texts of its successive
following siblings (`el.next()`, `el.next().next()`, ...; `cheerio`
yields the empty string once the sibling chain is exhausted). -/
structure Elem where
  text : String
  nextTexts : List String
deriving DecidableEq

/-- A parsed page, abstracted by what each selector in the handler reads
from it. -/
structure PageModel where
  ogSiteName : Option String
  appName : Option String
  author : Option String
  headerHeadText : String
  ogTitle : Option String
  twitterTitle : Option String
  h1Text : String
  titleText : String
  articlePublished : Option String
  timeDatetime : Option String
  timeText : String
  bodyText : String
  elems : List Elem
  contentParas : List String
  anchors : List String
  metaKeywords : Option String

/-! ## Metadata extraction (`main.js` lines 48-74) -/

/-- Company cascade (`main.js` lines 48-53): site-name meta, then
application-name meta, then author meta, then the first header
heading's trimmed text, else the empty string. -/
def extractCompany (p : PageModel) : String :=
  jsOrOpt p.ogSiteName
    (jsOrOpt p.appName
      (jsOrOpt p.author
        (jsOr (jsTrim p.headerHeadText) "")))

/-- Title cascade (`main.js` lines 56-61): open-graph title meta, then
twitter title meta, then the first `h1`'s trimmed text, then the trimmed
`title` element text, else the empty string. -/
def extractTitle (p : PageModel) : String :=
  jsOrOpt p.ogTitle
    (jsOrOpt p.twitterTitle
      (jsOr (jsTrim p.h1Text)
        (jsOr (jsTrim p.titleText) "")))

/-- Tests whether a word character sits at a regexp `\b` boundary side:
`[A-Za-z0-9_]`. -/
def isWordChar (c : Char) : Bool :=
  ('0' ≤ c && c ≤ '9') || ('a' ≤ c && c ≤ 'z') || ('A' ≤ c && c ≤ 'Z') || c = '_'

/-- Tests whether the character list begins with a year matching
`(20\d{2}|19\d{2})\b`: two digits after a `20` or `19` head, with no word
character immediately after. -/
def yearAt : List Char → Option String
  | c1 :: c2 :: c3 :: c4 :: rest =>
    if ((c1 = '2' && c2 = '0') || (c1 = '1' && c2 = '9'))
        && ('0' ≤ c3 && c3 ≤ '9') && ('0' ≤ c4 && c4 ≤ '9')
        && (match rest with | [] => true | r :: _ => !isWordChar r) then
      some ⟨[c1, c2, c3, c4]⟩
    else none
  | _ => none

/-- Scans for the first match of `\b(20\d{2}|19\d{2})\b`; `prevOk` records
whether the previous character (if any) was a non-word character, i.e.
whether a `\b` boundary precedes the current position. -/
def findYear : List Char → Bool → Option String
  | [], _ => none
  | c :: rest, prevOk =>
    match if prevOk then yearAt (c :: rest) else none with
    | some y => some y
    | none => findYear rest (!isWordChar c)

/-- Date cascade (`main.js` lines 64-74): published-time meta, then the
first `time` element's `datetime` attribute, then its trimmed text; if
still empty, the first `19xx`/`20xx` year (at word boundaries) in the
first 1200 characters of the body text. -/
def extractDate (p : PageModel) : String :=
  let date :=
    jsOrOpt p.articlePublished
      (jsOrOpt p.timeDatetime
        (jsOr (jsTrim p.timeText) ""))
  if date = "" then
    match findYear (jsSlice p.bodyText 1200).data true with
    | some y => y
    | none => ""
  else date

/-! ## Executive summary (`main.js` lines 77-98) -/

/-- Selection test of the `cheerio` query on line 78: the element's text
must contain, case-sensitively, one of the literals `Executive Summary`,
`EXECUTIVE SUMMARY` or `Summary` (`:contains` is case-sensitive). -/
def selectorMatch (t : String) : Bool :=
  strContains t "Executive Summary" || strContains t "EXECUTIVE SUMMARY" ||
    strContains t "Summary"

/-- Filter test on line 79: `/executive summary|summary/i.test(text)`. -/
def filterMatch (t : String) : Bool :=
  containsCI t "executive summary" || containsCI t "summary"

/-- Heading search (`main.js` lines 78-80): among the elements (in
document order) whose text passes `selectorMatch`, keep those passing
`filterMatch` and take the first, if any. -/
def execHeading (elems : List Elem) : Option Elem :=
  (((elems.filter fun e => selectorMatch e.text).filter
      fun e => filterMatch e.text)).head?

/-- Sibling-collection loop (`main.js` lines 84-92): walk up to `fuel`
(six) successive siblings, pushing each non-empty trimmed text; past the
end of the sibling chain `cheerio` returns empty text, which is skipped. -/
def collectLoop : List String → Nat → List String
  | _, 0 => []
  | [], n + 1 => collectLoop [] n
  | s :: rest, n + 1 =>
    let txt := jsTrim s
    if txt ≠ "" then txt :: collectLoop rest n else collectLoop rest n

/-- Executive-summary extraction (`main.js` lines 77-98): if a heading is
found, join the collected sibling texts with a blank line and truncate to
4000 characters; otherwise use the first content-region paragraph's
trimmed text when non-empty (truncated to 4000), else the empty string. -/
def execSummary (elems : List Elem) (contentParas : List String) : String :=
  match execHeading elems with
  | some e => jsSlice (joinSep "\n\n" (collectLoop e.nextTexts 6)) 4000
  | none =>
    let p := jsTrim (contentParas.head?.getD "")
    if p ≠ "" then jsSlice p 4000 else ""

/-! ## PDF-link detection (`main.js` lines 101-111) -/

/-- Keyword test on a raw href (`main.js` line 107):
`/esg|sustainability|sustainability-report|annual-report|csr/i`. -/
def hrefKeyword (href : String) : Bool :=
  containsCI href "esg" || containsCI href "sustainability" ||
    containsCI href "sustainability-report" || containsCI href "annual-report" ||
    containsCI href "csr"

/-- Loop body of the anchor scan: walk the hrefs in document order,
skipping falsy ones; resolve each against the page URL (`none` models the
`URL` constructor throwing, which aborts the whole `try` block); keep the
absolute URL when it ends in `.pdf` (case-insensitively) or the raw href
matches the keyword regexp.  `acc` holds the candidates collected so far,
in reverse. -/
def detectLoop (resolve : String → String → Option String) (loadedUrl : String) :
    List String → List String → Except Unit (List String)
  | [], acc => Except.ok acc.reverse
  | href :: rest, acc =>
    if href = "" then detectLoop resolve loadedUrl rest acc
    else
      match resolve href loadedUrl with
      | none => Except.error ()
      | some abs =>
        if strEndsWith (strToLower abs) ".pdf" || hrefKeyword href then
          detectLoop resolve loadedUrl rest (abs :: acc)
        else detectLoop resolve loadedUrl rest acc

/-- PDF detection (`main.js` lines 101-111): when `detectPdfLinks` is off
the candidate list stays empty; otherwise scan every anchor href.  An
`Except.error` models an exception escaping to the handler's `catch`. -/
def detectPdfs (resolve : String → String → Option String)
    (detectPdfLinks : Bool) (anchors : List String) (loadedUrl : String) :
    Except Unit (List String) :=
  if detectPdfLinks then detectLoop resolve loadedUrl anchors []
  else Except.ok []

/-! ## Tags (`main.js` lines 114-118) -/

/-- Tag collection (`main.js` lines 114-118): the comma-split trimmed
keywords meta (when the meta is present and non-empty), then the literal
`esg` when `/esg/i` matches the body text, then the literal
`sustainability` likewise.  Deduplication happens later, at record
creation. -/
def computeTags (metaKeywords : Option String) (body : String) : List String :=
  let t1 :=
    match metaKeywords with
    | some k => if k = "" then [] else (jsSplitComma k).map jsTrim
    | none => []
  let t2 := if containsCI body "esg" then t1 ++ ["esg"] else t1
  if containsCI body "sustainability" then t2 ++ ["sustainability"] else t2

/-! ## Record classification and emission (`main.js` lines 121-153) -/

/-- One record pushed to the dataset. -/
structure OutputRecord where
  company : String
  title : String
  date : String
  pdf_url : String
  exec_summary : String
  tags : List String
  url : String
deriving DecidableEq

/-- Keyword half of the likely-report test (`main.js` line 138): the
case-insensitive regexp
`/sustainability|esg|csr|environmental|social|governance|sustainability report|esg report/`
applied to the first 2000 characters of the body text. -/
def reportKeywordTest (body : String) : Bool :=
  let s := jsSlice body 2000
  containsCI s "sustainability" || containsCI s "esg" || containsCI s "csr" ||
    containsCI s "environmental" || containsCI s "social" ||
    containsCI s "governance" || containsCI s "sustainability report" ||
    containsCI s "esg report"

/-- Likely-report test (`main.js` lines 136-138): a non-empty executive
summary, or a keyword match in the first 2000 body characters. -/
def isLikelyReport (exec_summary body : String) : Bool :=
  exec_summary ≠ "" || reportKeywordTest body

/-- Record emission (`main.js` lines 121-153): with a non-empty candidate
list, one record per distinct URL among the first five after
deduplication; otherwise a single no-PDF record when the page looks like
a report, else nothing. -/
def classify (company title date exec_summary : String) (tags : List String)
    (pdfs : List String) (body loadedUrl : String) : List OutputRecord :=
  if pdfs.length ≠ 0 then
    ((jsSetDedup pdfs).take 5).map fun pdfUrl =>
      ⟨company, title, date, pdfUrl, exec_summary, jsSetDedup tags, loadedUrl⟩
  else if isLikelyReport exec_summary body then
    [⟨company, title, date, "", exec_summary, jsSetDedup tags, loadedUrl⟩]
  else []

/-- The `try` block of the `requestHandler` (`main.js` lines 46-156) as a
function from the page model to the records pushed for that page.  The
`catch` turns any exception from the anchor scan into an empty emission
(the error is only logged). -/
def processPage (resolve : String → String → Option String)
    (detectPdfLinks : Bool) (p : PageModel) (loadedUrl : String) :
    List OutputRecord :=
  let company := extractCompany p
  let title := extractTitle p
  let date := extractDate p
  let exec_summary := execSummary p.elems p.contentParas
  let tags := computeTags p.metaKeywords p.bodyText
  match detectPdfs resolve detectPdfLinks p.anchors loadedUrl with
  | Except.error _ => []
  | Except.ok pdfs => classify company title date exec_summary tags pdfs p.bodyText loadedUrl

/-! ## Spec-side definitions

These render the specification's wording, for comparison with the
definitions above, which follow the source. -/

/-- Rendering of the spec's fallback-cascade wording: the first non-empty
value of an ordered list of extractor results, else the empty string. -/
def firstNonEmpty (l : List String) : String :=
  ((l.filter fun s => s ≠ "").head?).getD ""

/-- Helper splitting a character list into maximal runs of word
characters (for the spec's notion of a standalone word). -/
def wordsAux : List Char → List Char → List String
  | [], cur => if cur = [] then [] else [⟨cur.reverse⟩]
  | c :: rest, cur =>
    if isWordChar c then wordsAux rest (c :: cur)
    else if cur = [] then wordsAux rest []
    else ⟨cur.reverse⟩ :: wordsAux rest []

/-- The lowercased words of a string. -/
def wordsOf (s : String) : List String := wordsAux (strToLower s).data []

/-- Rendering of the spec's heading test for claim C7: the element's text
matches, case-insensitively, the phrase `executive summary` or the
standalone word `summary`. -/
def specHeadingMatch (t : String) : Bool :=
  containsCI t "executive summary" || (wordsOf t).contains "summary"

/-- Rendering of the spec's anchor selection for claim C7: the first
element whose text passes `specHeadingMatch`. -/
def execHeadingSpec (elems : List Elem) : Option Elem :=
  (elems.filter fun e => specHeadingMatch e.text).head?

/-- Rendering of the spec's fallback for claim C7: the first non-empty
paragraph within the main content regions, trimmed and truncated to 4000
characters. -/
def specFallbackPara (contentParas : List String) : String :=
  jsSlice ((((contentParas.map jsTrim).filter fun t => t ≠ "").head?).getD "") 4000

/-! ## Concrete inputs used by witnesses and counterexamples -/

/-- A concrete stand-in for `u => new URL(u).host` covering the handful
of URLs used below. -/
def hostA : String → Option String := fun u =>
  if u = "https://a.com/" || u = "https://a.com/page" then some "a.com"
  else if u = "https://b.com/" then some "b.com"
  else none

/-- A concrete stand-in for href resolution that returns the href
unchanged. -/
def resolveId : String → String → Option String := fun href _ => some href

/-- A concrete stand-in for href resolution that fails on the href
`%bad%` and is the identity elsewhere. -/
def resolveBad : String → String → Option String := fun href _ =>
  if href = "%bad%" then none else some href

/-- A page whose only title sources are an open-graph title meta and an
`h1` (claim C8's example). -/
def pageOgH1 : PageModel :=
  ⟨none, none, none, "", some "OG Title", none, "H1 Title", "", none, none,
    "", "", [], [], [], none⟩

/-- A page with eight distinct PDF-like anchors and nothing else (claim
C1's example). -/
def page8 : PageModel :=
  ⟨none, none, none, "", none, none, "", "", none, none, "", "", [], [],
    ["https://a.com/r1.pdf", "https://a.com/r2.pdf", "https://a.com/r3.pdf",
     "https://a.com/r4.pdf", "https://a.com/r5.pdf", "https://a.com/r6.pdf",
     "https://a.com/r7.pdf", "https://a.com/r8.pdf"], none⟩

/-- The absolute URLs `detectPdfs` collects on `page8` under
`resolveId`. -/
def pdfList8 : List String :=
  ["https://a.com/r1.pdf", "https://a.com/r2.pdf", "https://a.com/r3.pdf",
   "https://a.com/r4.pdf", "https://a.com/r5.pdf", "https://a.com/r6.pdf",
   "https://a.com/r7.pdf", "https://a.com/r8.pdf"]

/-- A page with no anchors whose body mentions sustainability (claim
C2's example). -/
def pageLikely : PageModel :=
  ⟨none, none, none, "", none, none, "", "", none, none, "",
    "Our sustainability commitments.", [], [], [], none⟩

/-- A page with an anchor that resolves and one that does not (claim
C10's example). -/
def pageBad : PageModel :=
  ⟨none, none, none, "", none, none, "", "", none, none, "", "", [], [],
    ["https://a.com/report.pdf", "%bad%"], none⟩

/-- A long paragraph of 2100 `a` characters. -/
def longA : String := ⟨List.replicate 2100 'a'⟩

/-- A long paragraph of 2100 `b` characters. -/
def longB : String := ⟨List.replicate 2100 'b'⟩

/-- An executive-summary heading element followed by two long sibling
paragraphs whose joined text exceeds 4000 characters (claim C6's
example). -/
def sumElem : Elem := ⟨"Summary", [longA, longB]⟩

/-- A document whose only heading-like element says `summary` in
lowercase, with a non-empty second content paragraph after an empty
first one (claim C7's counterexample). -/
def lowerSummaryPage : List Elem := [⟨"summary", ["Fallback body text."]⟩]

/-! ## Helper lemmas -/

theorem mem_dedupAux (x : String) :
    ∀ (l seen : List String), x ∈ dedupAux seen l ↔ x ∈ l ∧ x ∉ seen
  | [], seen => by simp [dedupAux]
  | y :: ys, seen => by
    by_cases h : y ∈ seen
    · rw [dedupAux, if_pos h, mem_dedupAux x ys seen]
      constructor
      · rintro ⟨hx, hns⟩
        exact ⟨List.mem_cons_of_mem y hx, hns⟩
      · rintro ⟨hx, hns⟩
        rcases List.mem_cons.mp hx with rfl | hx'
        · exact absurd h hns
        · exact ⟨hx', hns⟩
    · rw [dedupAux, if_neg h]
      constructor
      · intro hx
        rcases List.mem_cons.mp hx with rfl | hx'
        · exact ⟨List.mem_cons_self x ys, h⟩
        · rcases (mem_dedupAux x ys (y :: seen)).mp hx' with ⟨hmem, hns⟩
          exact ⟨List.mem_cons_of_mem y hmem,
            fun hs => hns (List.mem_cons_of_mem y hs)⟩
      · rintro ⟨hx, hns⟩
        rcases List.mem_cons.mp hx with rfl | hx'
        · exact List.mem_cons_self x _
        · by_cases hxy : x = y
          · exact hxy ▸ List.mem_cons_self y _
          · refine List.mem_cons_of_mem y
              ((mem_dedupAux x ys (y :: seen)).mpr ⟨hx', ?_⟩)
            intro hs
            rcases List.mem_cons.mp hs with h1 | h2
            · exact hxy h1
            · exact hns h2

theorem mem_jsSetDedup (x : String) (l : List String) :
    x ∈ jsSetDedup l ↔ x ∈ l := by
  rw [jsSetDedup, mem_dedupAux]
  simp

theorem dedupAux_nodup : ∀ (l seen : List String), (dedupAux seen l).Nodup
  | [], _ => List.nodup_nil
  | y :: ys, seen => by
    by_cases h : y ∈ seen
    · rw [dedupAux, if_pos h]
      exact dedupAux_nodup ys seen
    · rw [dedupAux, if_neg h]
      refine List.nodup_cons.mpr ⟨fun hy => ?_, dedupAux_nodup ys (y :: seen)⟩
      exact ((mem_dedupAux y ys (y :: seen)).mp hy).2 (List.mem_cons_self y seen)

theorem jsSetDedup_nodup (l : List String) : (jsSetDedup l).Nodup :=
  dedupAux_nodup l []

theorem collectLoop_eq :
    ∀ (sibs : List String) (n : Nat),
      collectLoop sibs n = ((sibs.take n).map jsTrim).filter fun t => t ≠ ""
  | _, 0 => by simp [collectLoop]
  | [], n + 1 => by simp [collectLoop, collectLoop_eq [] n]
  | s :: rest, n + 1 => by
    rw [collectLoop]
    by_cases h : jsTrim s = ""
    · simp [h, collectLoop_eq rest n]
    · simp [h, collectLoop_eq rest n]

theorem startsWithL_map_lower :
    ∀ (pat s : List Char), startsWithL pat s = true →
      startsWithL (pat.map lowerChar) (s.map lowerChar) = true
  | [], _ => by intro; rfl
  | p :: ps, [] => by simp [startsWithL]
  | p :: ps, c :: cs => by
    simp only [startsWithL, List.map, Bool.and_eq_true, decide_eq_true_eq]
    rintro ⟨rfl, h⟩
    exact ⟨rfl, startsWithL_map_lower ps cs h⟩

theorem containsL_map_lower :
    ∀ (pat s : List Char), containsL pat s = true →
      containsL (pat.map lowerChar) (s.map lowerChar) = true
  | pat, [] => by
    cases pat with
    | nil => intro; rfl
    | cons p ps => simp [containsL, startsWithL]
  | pat, c :: cs => by
    simp only [containsL, Bool.or_eq_true]
    rintro (h | h)
    · exact Or.inl (startsWithL_map_lower pat (c :: cs) h)
    · exact Or.inr (containsL_map_lower pat cs h)

theorem strContains_toLower (s pat lpat : String)
    (hl : pat.data.map lowerChar = lpat.data)
    (h : strContains s pat = true) :
    strContains (strToLower s) lpat = true := by
  rw [strContains, strToLower] at *
  rw [← hl]
  exact containsL_map_lower pat.data s.data h

theorem selectorMatch_filterMatch (t : String)
    (h : selectorMatch t = true) : filterMatch t = true := by
  rw [selectorMatch, Bool.or_eq_true, Bool.or_eq_true] at h
  rw [filterMatch, Bool.or_eq_true]
  rcases h with (h | h) | h
  · exact Or.inl (strContains_toLower t "Executive Summary" "executive summary" (by decide) h)
  · exact Or.inl (strContains_toLower t "EXECUTIVE SUMMARY" "executive summary" (by decide) h)
  · exact Or.inr (strContains_toLower t "Summary" "summary" (by decide) h)

theorem jsSlice_length (s : String) (n : Nat) :
    (jsSlice s n).length = min n s.length :=
  List.length_take n s.data

theorem jsSlice_append_drop (s : String) (n : Nat) :
    jsSlice s n ++ (⟨s.data.drop n⟩ : String) = s := by
  show (⟨s.data.take n ++ s.data.drop n⟩ : String) = s
  rw [List.take_append_drop]

theorem isLikelyReport_iff (es body : String) :
    isLikelyReport es body = true ↔ es ≠ "" ∨ reportKeywordTest body = true := by
  rw [isLikelyReport, Bool.or_eq_true, decide_eq_true_eq]

theorem firstNonEmpty_nil : firstNonEmpty [] = "" := rfl

theorem firstNonEmpty_cons (s : String) (rest : List String) :
    firstNonEmpty (s :: rest) = jsOr s (firstNonEmpty rest) := by
  rw [firstNonEmpty, firstNonEmpty, jsOr]
  by_cases h : s = ""
  · simp [h, List.filter]
  · simp [h, List.filter]

theorem dropWhile_isWs_replicate (n : Nat) (c : Char) (hc : isWs c = false) :
    List.dropWhile isWs (List.replicate n c) = List.replicate n c := by
  cases n with
  | zero => rfl
  | succ m =>
    rw [List.replicate_succ, List.dropWhile_cons]
    simp [hc]

theorem jsTrim_replicate (n : Nat) (c : Char) (hc : isWs c = false) :
    jsTrim ⟨List.replicate n c⟩ = ⟨List.replicate n c⟩ := by
  show (⟨(((List.replicate n c).dropWhile isWs).reverse.dropWhile isWs).reverse⟩ : String) =
    ⟨List.replicate n c⟩
  rw [dropWhile_isWs_replicate n c hc, List.reverse_replicate,
    dropWhile_isWs_replicate n c hc, List.reverse_replicate]

theorem strLength_append (a b : String) : (a ++ b).length = a.length + b.length :=
  List.length_append a.data b.data

theorem map_pdf_url_of_map_mk (company title date es : String)
    (tags : List String) (url : String) (l : List String) :
    (l.map fun pdfUrl =>
      (⟨company, title, date, pdfUrl, es, tags, url⟩ : OutputRecord)).map
        OutputRecord.pdf_url = l := by
  induction l with
  | nil => rfl
  | cons a t ih => simp only [List.map_cons, ih]

theorem detectLoop_error (resolve : String → String → Option String)
    (loadedUrl h : String) (hne : h ≠ "") (hfail : resolve h loadedUrl = none) :
    ∀ (anchors acc : List String), h ∈ anchors →
      detectLoop resolve loadedUrl anchors acc = Except.error ()
  | [], _, hmem => absurd hmem (List.not_mem_nil h)
  | a :: rest, acc, hmem => by
    rcases List.mem_cons.mp hmem with rfl | hmem'
    · rw [detectLoop, if_neg hne, hfail]
    · by_cases ha : a = ""
      · rw [detectLoop, if_pos ha]
        exact detectLoop_error resolve loadedUrl h hne hfail rest acc hmem'
      · rw [detectLoop, if_neg ha]
        cases hr : resolve a loadedUrl with
        | none => rfl
        | some abs =>
          show (if (strEndsWith (strToLower abs) ".pdf" || hrefKeyword a) = true then
              detectLoop resolve loadedUrl rest (abs :: acc)
            else detectLoop resolve loadedUrl rest acc) = Except.error ()
          by_cases hk : (strEndsWith (strToLower abs) ".pdf" || hrefKeyword a) = true
          · rw [if_pos hk]
            exact detectLoop_error resolve loadedUrl h hne hfail rest (abs :: acc) hmem'
          · rw [if_neg hk]
            exact detectLoop_error resolve loadedUrl h hne hfail rest acc hmem'

/-! ## Claim theorems -/

/-- C3: with `followInternalOnly` on, for every candidate whose URL
parses (and whose effective start URL — the `startHost` tag, falling
back to the origin's own URL — parses too), the link-admission filter
accepts the candidate iff the candidate's host equals the start host. -/
theorem c3_host_scope_filter (host : String → Option String) (origin r : Req)
    (sh ch : String) (hs : host (effectiveStartUrl origin) = some sh)
    (hc : host r.url = some ch) :
    transformRequest host true origin r = some r ↔ ch = sh := by
  by_cases h : ch = sh
  · subst h
    simp [transformRequest, hs, hc]
  · simp [transformRequest, hs, hc, h]

/-- Witness for C3: under `hostA`, a same-host candidate is admitted and
a cross-host candidate is refused. -/
theorem c3_host_scope_filter_witness :
    hostA (effectiveStartUrl ⟨"https://a.com/", none⟩) = some "a.com" ∧
    hostA (Req.url ⟨"https://b.com/", none⟩) = some "b.com" ∧
    transformRequest hostA true ⟨"https://a.com/", none⟩ ⟨"https://b.com/", none⟩
      ≠ some ⟨"https://b.com/", none⟩ := by
  refine ⟨by decide, by decide, fun hadm => ?_⟩
  have hbad := (c3_host_scope_filter hostA ⟨"https://a.com/", none⟩
    ⟨"https://b.com/", none⟩ "a.com" "b.com" (by decide) (by decide)).mp hadm
  exact absurd hbad (by decide)

/-- C4 counterexample: an admitted candidate is enqueued exactly as it
arrived; here the origin carries `startHost = some "https://a.com/"` but
the admitted candidate still carries no `startHost` tag, so the tag is
not copied forward. -/
theorem c4_starthost_not_copied_cex :
    transformRequest hostA true ⟨"https://a.com/", some "https://a.com/"⟩
        ⟨"https://a.com/page", none⟩ = some ⟨"https://a.com/page", none⟩ ∧
    (⟨"https://a.com/page", none⟩ : Req).startHost ≠
      (⟨"https://a.com/", some "https://a.com/"⟩ : Req).startHost :=
  ⟨by decide, by decide⟩

/-- C4 (amended): on admission the candidate request is returned
unchanged — in particular its `startHost` tag is whatever the candidate
already carried, not a copy of the origin's tag. -/
theorem c4_admitted_request_unchanged (host : String → Option String)
    (followInternalOnly : Bool) (origin r r' : Req)
    (h : transformRequest host followInternalOnly origin r = some r') :
    r' = r := by
  unfold transformRequest at h
  split at h
  · split at h
    · split at h
      · cases h
      · exact (Option.some.inj h).symm
    · exact (Option.some.inj h).symm
    · exact (Option.some.inj h).symm
  · exact (Option.some.inj h).symm

/-- Witness for the amended C4: a concrete admission, whose enqueued
request equals the candidate as it arrived. -/
theorem c4_admitted_request_unchanged_witness :
    transformRequest hostA true ⟨"https://a.com/", none⟩ ⟨"https://a.com/page", none⟩
      = some ⟨"https://a.com/page", none⟩ ∧
    (⟨"https://a.com/page", none⟩ : Req) = ⟨"https://a.com/page", none⟩ :=
  ⟨by decide, c4_admitted_request_unchanged hostA true ⟨"https://a.com/", none⟩
    ⟨"https://a.com/page", none⟩ ⟨"https://a.com/page", none⟩ (by decide)⟩

/-- C5: a candidate whose URL fails to parse is not refused — the parse
failure lands in the empty catch block and the candidate is admitted,
whatever the scope setting. -/
theorem c5_malformed_admitted (host : String → Option String)
    (followInternalOnly : Bool) (origin r : Req)
    (h : host r.url = none) :
    transformRequest host followInternalOnly origin r = some r := by
  cases followInternalOnly with
  | false => rfl
  | true =>
    cases hs : host (effectiveStartUrl origin) with
    | none => simp [transformRequest, hs]
    | some sh => simp [transformRequest, hs, h]

/-- Witness for C5: a malformed candidate URL is admitted under
host-scope restriction. -/
theorem c5_malformed_admitted_witness :
    hostA "notaurl" = none ∧
    transformRequest hostA true ⟨"https://a.com/", none⟩ ⟨"notaurl", none⟩
      = some ⟨"notaurl", none⟩ :=
  ⟨by decide, c5_malformed_admitted hostA true ⟨"https://a.com/", none⟩
    ⟨"notaurl", none⟩ (by decide)⟩

/-- C8: the extracted title is the first non-empty value of, in order,
the open-graph title meta, the twitter title meta, the first `h1`'s
trimmed text and the trimmed `title` element text; in particular a page
with both an open-graph title `OG Title` and an `h1` `H1 Title` yields
`OG Title`. -/
theorem c8_title_cascade :
    (∀ p : PageModel, extractTitle p =
      firstNonEmpty [p.ogTitle.getD "", p.twitterTitle.getD "",
        jsTrim p.h1Text, jsTrim p.titleText]) ∧
    extractTitle pageOgH1 = "OG Title" := by
  constructor
  · intro p
    simp only [extractTitle, jsOrOpt,
      firstNonEmpty_cons, firstNonEmpty_nil]
  · decide

/-- C9: a tag belongs to the emitted set iff it is a comma-split trimmed
keywords-meta entry, or is the literal `esg` with `esg` occurring
case-insensitively in the body text, or likewise `sustainability`; the
set is duplicate-free under exact string equality, and the spec's
example keywords meta with matching body yields the case-preserved
four-element set. -/
theorem c9_tag_set :
    (∀ (mk body x : String), mk ≠ "" →
      (x ∈ jsSetDedup (computeTags (some mk) body) ↔
        x ∈ (jsSplitComma mk).map jsTrim ∨
          (x = "esg" ∧ containsCI body "esg" = true) ∨
          (x = "sustainability" ∧ containsCI body "sustainability" = true))) ∧
    (∀ body x, x ∈ jsSetDedup (computeTags none body) ↔
        (x = "esg" ∧ containsCI body "esg" = true) ∨
        (x = "sustainability" ∧ containsCI body "sustainability" = true)) ∧
    (∀ l, (jsSetDedup l).Nodup) ∧
    jsSetDedup (computeTags (some "ESG, esg, Sustainability")
        "Body mentions ESG and sustainability.") =
      ["ESG", "esg", "Sustainability", "sustainability"] := by
  refine ⟨?_, ?_, jsSetDedup_nodup, by decide⟩
  · intro mk body x hmk
    rw [mem_jsSetDedup, computeTags]
    rw [if_neg hmk]
    by_cases h1 : containsCI body "esg" = true <;>
      by_cases h2 : containsCI body "sustainability" = true <;>
        simp [h1, h2]
  · intro body x
    rw [mem_jsSetDedup, computeTags]
    by_cases h1 : containsCI body "esg" = true <;>
      by_cases h2 : containsCI body "sustainability" = true <;>
        simp [h1, h2]

/-- Witness for C9: a concrete instance of the membership
characterization with a non-empty keywords meta. -/
theorem c9_tag_set_witness :
    ("kw1, kw2" : String) ≠ "" ∧
    ("kw1" ∈ jsSetDedup (computeTags (some "kw1, kw2") "plain body") ↔
      "kw1" ∈ (jsSplitComma "kw1, kw2").map jsTrim ∨
        ("kw1" = "esg" ∧ containsCI "plain body" "esg" = true) ∨
        ("kw1" = "sustainability" ∧
          containsCI "plain body" "sustainability" = true)) :=
  ⟨by decide, c9_tag_set.1 "kw1, kw2" "plain body" "kw1" (by decide)⟩

/-- C1: when the PDF-candidate list of a processed page is nonempty, the
page emits exactly `min 5 |dedup|` records, their `pdf_url`s are the
first five deduplicated candidates in discovery order (pairwise
distinct), and every record carries the same extracted metadata and the
page's resolved URL. -/
theorem c1_pdf_record_cap (resolve : String → String → Option String)
    (p : PageModel) (loadedUrl : String) (pdfs : List String)
    (hdet : detectPdfs resolve true p.anchors loadedUrl = Except.ok pdfs)
    (hne : pdfs ≠ []) :
    (processPage resolve true p loadedUrl).length = min 5 (jsSetDedup pdfs).length ∧
    (processPage resolve true p loadedUrl).map OutputRecord.pdf_url =
      (jsSetDedup pdfs).take 5 ∧
    ((processPage resolve true p loadedUrl).map OutputRecord.pdf_url).Nodup ∧
    ∀ r ∈ processPage resolve true p loadedUrl,
      r.company = extractCompany p ∧ r.title = extractTitle p ∧
      r.date = extractDate p ∧
      r.exec_summary = execSummary p.elems p.contentParas ∧
      r.tags = jsSetDedup (computeTags p.metaKeywords p.bodyText) ∧
      r.url = loadedUrl := by
  have hlen : pdfs.length ≠ 0 := fun h0 => hne (List.length_eq_zero.mp h0)
  have hrec : processPage resolve true p loadedUrl =
      ((jsSetDedup pdfs).take 5).map fun pdfUrl =>
        (⟨extractCompany p, extractTitle p, extractDate p, pdfUrl,
          execSummary p.elems p.contentParas,
          jsSetDedup (computeTags p.metaKeywords p.bodyText),
          loadedUrl⟩ : OutputRecord) := by
    simp only [processPage, hdet, classify]
    rw [if_pos hlen]
  have hmap : (processPage resolve true p loadedUrl).map OutputRecord.pdf_url =
      (jsSetDedup pdfs).take 5 := by
    rw [hrec]
    exact map_pdf_url_of_map_mk _ _ _ _ _ _ _
  refine ⟨?_, hmap, ?_, ?_⟩
  · rw [hrec, List.length_map, List.length_take]
  · rw [hmap]
    exact (jsSetDedup_nodup pdfs).sublist (List.take_sublist 5 (jsSetDedup pdfs))
  · intro r hr
    rw [hrec] at hr
    rcases List.mem_map.mp hr with ⟨u, hu, rfl⟩
    exact ⟨rfl, rfl, rfl, rfl, rfl, rfl⟩

/-- Witness for C1: the spec's example of a page with eight distinct
PDF-like links, which emits exactly five records. -/
theorem c1_pdf_record_cap_witness :
    detectPdfs resolveId true page8.anchors "https://a.com/" = Except.ok pdfList8 ∧
    pdfList8 ≠ [] ∧
    (processPage resolveId true page8 "https://a.com/").length =
      min 5 (jsSetDedup pdfList8).length ∧
    (processPage resolveId true page8 "https://a.com/").map OutputRecord.pdf_url =
      (jsSetDedup pdfList8).take 5 := by
  have h := c1_pdf_record_cap resolveId page8 "https://a.com/" pdfList8 rfl
    (by decide)
  exact ⟨rfl, by decide, h.1, h.2.1⟩

/-- C2: when the PDF-candidate list is empty, exactly one record with an
empty `pdf_url` is emitted iff the extracted executive summary is
non-empty or a report keyword occurs case-insensitively in the first
2000 characters of the body text; otherwise zero records are emitted. -/
theorem c2_no_pdf_record (resolve : String → String → Option String)
    (detectPdfLinks : Bool) (p : PageModel) (loadedUrl : String)
    (hdet : detectPdfs resolve detectPdfLinks p.anchors loadedUrl = Except.ok []) :
    (processPage resolve detectPdfLinks p loadedUrl =
        [⟨extractCompany p, extractTitle p, extractDate p, "",
          execSummary p.elems p.contentParas,
          jsSetDedup (computeTags p.metaKeywords p.bodyText), loadedUrl⟩] ↔
      (execSummary p.elems p.contentParas ≠ "" ∨
        reportKeywordTest p.bodyText = true)) ∧
    (processPage resolve detectPdfLinks p loadedUrl = [] ↔
      ¬ (execSummary p.elems p.contentParas ≠ "" ∨
          reportKeywordTest p.bodyText = true)) := by
  have hrec : processPage resolve detectPdfLinks p loadedUrl =
      if isLikelyReport (execSummary p.elems p.contentParas) p.bodyText then
        [⟨extractCompany p, extractTitle p, extractDate p, "",
          execSummary p.elems p.contentParas,
          jsSetDedup (computeTags p.metaKeywords p.bodyText), loadedUrl⟩]
      else [] := by
    simp only [processPage, hdet, classify]
    rw [if_neg (fun h0 : ([] : List String).length ≠ 0 => h0 rfl)]
  rw [hrec]
  by_cases hl : isLikelyReport (execSummary p.elems p.contentParas) p.bodyText = true
  · rw [if_pos hl]
    have hp := (isLikelyReport_iff _ _).mp hl
    exact ⟨⟨fun _ => hp, fun _ => rfl⟩,
      ⟨fun h0 => absurd h0 (List.cons_ne_nil _ _), fun h0 => absurd hp h0⟩⟩
  · rw [if_neg hl]
    have hp : ¬ (execSummary p.elems p.contentParas ≠ "" ∨
        reportKeywordTest p.bodyText = true) :=
      fun hor => hl ((isLikelyReport_iff _ _).mpr hor)
    exact ⟨⟨fun h0 => absurd h0.symm (List.cons_ne_nil _ _), fun h0 => absurd h0 hp⟩,
      ⟨fun _ => hp, fun _ => rfl⟩⟩

/-- Witness for C2: a page with no anchors whose body mentions
sustainability emits exactly one record with an empty `pdf_url`. -/
theorem c2_no_pdf_record_witness :
    detectPdfs resolveId true pageLikely.anchors "https://a.com/" = Except.ok [] ∧
    processPage resolveId true pageLikely "https://a.com/" =
      [⟨extractCompany pageLikely, extractTitle pageLikely, extractDate pageLikely, "",
        execSummary pageLikely.elems pageLikely.contentParas,
        jsSetDedup (computeTags pageLikely.metaKeywords pageLikely.bodyText),
        "https://a.com/"⟩] :=
  ⟨rfl, (c2_no_pdf_record resolveId true pageLikely "https://a.com/" rfl).1.mpr
    (Or.inr (by decide))⟩

/-- C6: when a heading is found, the extractor keeps the non-empty
trimmed texts of up to six following siblings, joins them with a blank
line and truncates to 4000 characters; when the joined text exceeds 4000
characters the result has length exactly 4000 and is a prefix of the
joined text. -/
theorem c6_exec_summary_truncation (elems : List Elem)
    (contentParas : List String) (e : Elem)
    (h : execHeading elems = some e) :
    collectLoop e.nextTexts 6 =
      ((e.nextTexts.take 6).map jsTrim).filter (fun t => t ≠ "") ∧
    execSummary elems contentParas =
      jsSlice (joinSep "\n\n" (collectLoop e.nextTexts 6)) 4000 ∧
    (4000 < (joinSep "\n\n" (collectLoop e.nextTexts 6)).length →
      (execSummary elems contentParas).length = 4000 ∧
      ∃ rest, joinSep "\n\n" (collectLoop e.nextTexts 6) =
        execSummary elems contentParas ++ rest) := by
  have hsum : execSummary elems contentParas =
      jsSlice (joinSep "\n\n" (collectLoop e.nextTexts 6)) 4000 := by
    rw [execSummary, h]
  refine ⟨collectLoop_eq e.nextTexts 6, hsum, fun hlong => ⟨?_, ?_⟩⟩
  · rw [hsum, jsSlice_length]
    exact Nat.min_eq_left (Nat.le_of_lt hlong)
  · exact ⟨⟨(joinSep "\n\n" (collectLoop e.nextTexts 6)).data.drop 4000⟩,
      by rw [hsum, jsSlice_append_drop]⟩

/-- Witness for C6: a `Summary` heading followed by two 2100-character
paragraphs, whose joined text of length 4202 exceeds 4000. -/
theorem c6_exec_summary_truncation_witness :
    execHeading [sumElem] = some sumElem ∧
    4000 < (joinSep "\n\n" (collectLoop sumElem.nextTexts 6)).length ∧
    (collectLoop sumElem.nextTexts 6 =
      ((sumElem.nextTexts.take 6).map jsTrim).filter (fun t => t ≠ "") ∧
    execSummary [sumElem] [] =
      jsSlice (joinSep "\n\n" (collectLoop sumElem.nextTexts 6)) 4000 ∧
    (4000 < (joinSep "\n\n" (collectLoop sumElem.nextTexts 6)).length →
      (execSummary [sumElem] []).length = 4000 ∧
      ∃ rest, joinSep "\n\n" (collectLoop sumElem.nextTexts 6) =
        execSummary [sumElem] [] ++ rest)) := by
  refine ⟨rfl, ?_, c6_exec_summary_truncation [sumElem] [] sumElem rfl⟩
  have hA : jsTrim longA = longA := jsTrim_replicate 2100 'a' rfl
  have hB : jsTrim longB = longB := jsTrim_replicate 2100 'b' rfl
  have hAne : longA ≠ "" := by
    intro h0
    have h1 : List.replicate 2100 'a' = ([] : List Char) := congrArg String.data h0
    have h2 := congrArg List.length h1
    rw [List.length_replicate] at h2
    exact absurd h2 (by decide)
  have hBne : longB ≠ "" := by
    intro h0
    have h1 : List.replicate 2100 'b' = ([] : List Char) := congrArg String.data h0
    have h2 := congrArg List.length h1
    rw [List.length_replicate] at h2
    exact absurd h2 (by decide)
  have hcl : collectLoop sumElem.nextTexts 6 = [longA, longB] := by
    rw [show sumElem.nextTexts = [longA, longB] from rfl, collectLoop_eq]
    rw [show List.take 6 [longA, longB] = [longA, longB] from rfl]
    rw [show List.map jsTrim [longA, longB] = [jsTrim longA, jsTrim longB] from rfl]
    rw [hA, hB]
    apply List.filter_eq_self.mpr
    intro a ha
    rcases List.mem_cons.mp ha with rfl | ha2
    · exact decide_eq_true hAne
    · rcases List.mem_cons.mp ha2 with rfl | ha3
      · exact decide_eq_true hBne
      · exact absurd ha3 (List.not_mem_nil a)
  rw [hcl]
  have hlen : (joinSep "\n\n" [longA, longB]).length = 2100 + 2 + 2100 := by
    rw [show joinSep "\n\n" [longA, longB] = (longA ++ "\n\n") ++ longB from rfl]
    rw [strLength_append, strLength_append,
      show longA.length = 2100 from List.length_replicate 2100 'a',
      show longB.length = 2100 from List.length_replicate 2100 'b',
      show ("\n\n" : String).length = 2 from rfl]
  rw [hlen]
  decide

/-- C7 counterexample: an element whose text is the lowercase standalone
word `summary` matches the claim's case-insensitive anchor test, yet the
extractor selects no anchor for it (its `:contains` pre-selection is
case-sensitive); likewise the fallback ignores a non-empty second
paragraph when the first is empty, yielding the empty summary where the
claim predicts a non-empty one. -/
theorem c7_heading_selection_cex :
    specHeadingMatch "summary" = true ∧
    execHeadingSpec lowerSummaryPage =
      some ⟨"summary", ["Fallback body text."]⟩ ∧
    execHeading lowerSummaryPage = none ∧
    specFallbackPara ["", "Real paragraph."] = "Real paragraph." ∧
    execSummary lowerSummaryPage ["", "Real paragraph."] = "" :=
  ⟨by decide, by decide, by decide, by decide, by decide⟩

/-- C7 (amended): the anchor is the first element whose text contains,
case-sensitively, one of the literals `Executive Summary`,
`EXECUTIVE SUMMARY` or `Summary` — the subsequent case-insensitive
filter never removes such a candidate — and when no anchor exists the
fallback uses the first content paragraph's trimmed text only when that
text is non-empty. -/
theorem c7_heading_selection_amended (elems : List Elem)
    (contentParas : List String) :
    execHeading elems = (elems.filter fun e => selectorMatch e.text).head? ∧
    (execHeading elems = none →
      execSummary elems contentParas =
        if jsTrim (contentParas.head?.getD "") ≠ "" then
          jsSlice (jsTrim (contentParas.head?.getD "")) 4000
        else "") := by
  constructor
  · rw [execHeading]
    congr 1
    apply List.filter_eq_self.mpr
    intro e he
    have hsel := (List.mem_filter.mp he).2
    exact selectorMatch_filterMatch e.text hsel
  · intro hn
    rw [execSummary, hn]

/-- Witness for the amended C7: the lowercase-summary document falls
through to the first-paragraph fallback, which yields the empty string
on an empty first paragraph. -/
theorem c7_heading_selection_amended_witness :
    execHeading lowerSummaryPage = none ∧
    execSummary lowerSummaryPage ["", "Real paragraph."] =
      (if jsTrim (((["", "Real paragraph."] : List String).head?).getD "") ≠ "" then
        jsSlice (jsTrim (((["", "Real paragraph."] : List String).head?).getD "")) 4000
      else "") :=
  ⟨by decide,
    (c7_heading_selection_amended lowerSummaryPage ["", "Real paragraph."]).2 (by decide)⟩

/-- C10: with PDF detection enabled, one anchor whose href fails to
resolve aborts the page's whole extraction through the page-level catch:
zero records are emitted for the page, whatever its other anchors
held. -/
theorem c10_resolve_failure_skips_page (resolve : String → String → Option String)
    (p : PageModel) (loadedUrl h : String)
    (hmem : h ∈ p.anchors) (hne : h ≠ "") (hfail : resolve h loadedUrl = none) :
    processPage resolve true p loadedUrl = [] := by
  have herr : detectPdfs resolve true p.anchors loadedUrl = Except.error () := by
    rw [detectPdfs, if_pos rfl]
    exact detectLoop_error resolve loadedUrl h hne hfail p.anchors [] hmem
  simp only [processPage, herr]

/-- Witness for C10: a page holding a valid PDF anchor and a failing
one; the valid anchor alone would be detected, yet the page emits
nothing. -/
theorem c10_resolve_failure_skips_page_witness :
    ("%bad%" ∈ pageBad.anchors) ∧ ("%bad%" : String) ≠ "" ∧
    resolveBad "%bad%" "https://a.com/" = none ∧
    detectPdfs resolveBad true ["https://a.com/report.pdf"] "https://a.com/" =
      Except.ok ["https://a.com/report.pdf"] ∧
    processPage resolveBad true pageBad "https://a.com/" = [] :=
  ⟨by decide, by decide, by decide, rfl,
    c10_resolve_failure_skips_page resolveBad pageBad "https://a.com/" "%bad%"
      (by decide) (by decide) (by decide)⟩

end Korak
